import Mathlib

/-!
Verification of the `elemental` element-wrapper generator.

The generator iterates a catalog mapping an HTML element key to a
descriptor (`Desc`), derives the identifier spellings needed by two fixed
text templates (`templElem` / `templAttr`), renders each template, formats
the rendered text, and writes the result to
`outputDirectory/<key>_elem.go` resp. `outputDirectory/<key>_elem_test.go`,
aborting the whole run on the first failure.

The embedding below mirrors `main.go`:
* `deriveElem` is the name-derivation block of `main` (the loop body up to
  the construction of the `templElem` record).  Go's `k[0]` on an empty
  string panics, which the embedding models as `none`.
  `strings.ToUpper(string(k[0]))` is modelled by `Char.toUpper` (the
  catalog keys and raw attribute names are ASCII).
* `executeTemplate` mirrors the Go function of the same name: render,
  format, create the output file (truncating), write.  The two external
  collaborators (template execution and `format.Source`) and the two
  fallible I/O steps (`os.Create`, `File.Write`) are parameters of an
  `Env`, as they are external to the core per the design; the filesystem
  is a pure association list from path to contents.
* `runPipeline` mirrors the `for k, v := range elements` loop of `main`.
  A Go `map` iteration order is unspecified, so theorems about whole-run
  behaviour quantify over the catalog presented as an arbitrarily ordered
  association list, and determinism is proved as invariance of the bytes
  written per key and artifact kind under permutation of that order.
-/

/-- One attribute of an element (`Attr` in `main.go`).  The Go field
`Type` cannot keep its name in Lean, hence `Type'`. -/
structure Attr where
  Name : String
  Override : String
  Type' : String
deriving DecidableEq, Repr

/-- One catalog entry (`Desc` in `main.go`). -/
structure Desc where
  Override : String
  Attributes : List Attr
deriving DecidableEq, Repr

/-- Resolved attribute handed to the templates (`templAttr` in `main.go`). -/
structure templAttr where
  Name : String
  JS : String
  Type' : String
deriving DecidableEq, Repr

/-- Resolved element record handed to the templates (`templElem`). -/
structure templElem where
  Elem : String
  Name : String
  Props : String
  Upper : String
  Attrs : List templAttr
deriving DecidableEq, Repr

/-- Go's `strings.ToUpper(string(s[0])) + s[1:]` for an ASCII string;
`none` models the index-out-of-range panic on the empty string. -/
def goCapitalize (s : String) : Option String :=
  match s.data with
  | [] => none
  | c :: cs => some (String.mk (Char.toUpper c :: cs))

/-- Resolution of one `Attr` inside the loop of `main`:
`js := a.Name`; `name` is the override if non-empty, else `js` with its
first byte upper-cased (panic -- `none` -- when `js` is empty); the type
defaults to `"string"`. -/
def resolveAttr (a : Attr) : Option templAttr :=
  let js := a.Name
  match (if a.Override = "" then goCapitalize js else some a.Override) with
  | none => none
  | some name =>
    let t := if a.Type' = "" then "string" else a.Type'
    some { Name := name, JS := js, Type' := t }

/-- The `for _, a := range v.Attributes` loop of `main`: resolve each
attribute in list order, appending to `attrs`; a panic (`none`) at any
attribute aborts. -/
def resolveAttrs : List Attr → Option (List templAttr)
  | [] => some []
  | a :: rest =>
    match resolveAttr a with
    | none => none
    | some b =>
      match resolveAttrs rest with
      | none => none
      | some bs => some (b :: bs)

/-- The name-derivation block of `main` for one catalog entry `(k, v)`:
`upper` is the descriptor override if non-empty, else `k` capitalized
(panic -- `none` -- when `k` is empty); the attributes are resolved in
list order. -/
def deriveElem (k : String) (v : Desc) : Option templElem :=
  match (if v.Override = "" then goCapitalize k else some v.Override) with
  | none => none
  | some upper =>
    match resolveAttrs v.Attributes with
    | none => none
    | some attrs =>
      some { Elem := upper ++ "Elem", Name := k, Props := upper ++ "Props",
             Upper := upper, Attrs := attrs }

/-- The two artifact kinds: the implementation template (`primary` in
`main.go`) and the test template. -/
inductive Kind where
  | impl
  | test
deriving DecidableEq, Repr

/-- File-name suffix per artifact kind, as in
`executeTemplate(k+"_elem.go", primary, e)` and
`executeTemplate(k+"_elem_test.go", test, e)`. -/
def kindSuffix : Kind → String
  | .impl => "_elem.go"
  | .test => "_elem_test.go"

/-- `filepath.Join(dir, n)` for already-clean components. -/
def filepathJoin (dir n : String) : String :=
  if dir = "" then n else dir ++ "/" ++ n

/-- Output path of one artifact: `filepath.Join(*outputDirectory, k+suffix)`. -/
def artifactPath (odir k : String) (kind : Kind) : String :=
  filepathJoin odir (k ++ kindSuffix kind)

/-- The stage inside `executeTemplate` at which a panic occurred. -/
inductive Stage where
  | render
  | format
  | create
  | write
deriving DecidableEq, Repr

/-- The single fatal failure aborting a run: either the `k[0]` / `js[0]`
index panic during name derivation, or a panic inside `executeTemplate`,
recorded with the entry key and artifact kind being processed. -/
inductive GenError where
  | derivePanic (key : String)
  | artifactFailure (key : String) (kind : Kind) (stage : Stage) (msg : String)
deriving DecidableEq, Repr

/-- The filesystem as seen by the generator: newest write first. -/
def FS := List (String × String)

instance : DecidableEq FS := by
  unfold FS
  infer_instance

/-- `os.Create` / `File.Write` effect: bind `p` to `v`. -/
def fsSet (fs : FS) (p v : String) : FS := (p, v) :: fs

/-- Contents at path `p`, if any. -/
def fsGet (fs : FS) (p : String) : Option String :=
  match fs with
  | [] => none
  | (q, v) :: rest => if p = q then some v else fsGet rest p

/-- The empty output directory. -/
def emptyFS : FS := []

/-- The external collaborators of the core: template execution
(`text/template` `Execute`), `format.Source`, and whether `os.Create`
resp. `File.Write` succeed at a given path. -/
structure Env where
  render : Kind → templElem → Except String String
  format : String → Except String String
  createOk : String → Bool
  writeOk : String → Bool

/-- `executeTemplate(n, t, e)` of `main.go`: execute the template into a
buffer, run `format.Source`, `os.Create` the file (truncating it), write
the formatted bytes.  Any failing step panics, aborting with the
filesystem as it stood at that moment; note that `os.Create` runs only
after formatting succeeded, and truncates the file even if the subsequent
write fails. -/
def executeTemplate (env : Env) (odir : String) (key : String) (kind : Kind)
    (n : String) (e : templElem) (fs : FS) : FS × Option GenError :=
  match env.render kind e with
  | .error m => (fs, some (.artifactFailure key kind .render m))
  | .ok raw =>
    match env.format raw with
    | .error m => (fs, some (.artifactFailure key kind .format m))
    | .ok formatted =>
      let p := filepathJoin odir n
      if env.createOk p then
        let fs1 := fsSet fs p ""
        if env.writeOk p then (fsSet fs1 p formatted, none)
        else (fs1, some (.artifactFailure key kind .write ""))
      else (fs, some (.artifactFailure key kind .create ""))

/-- The body of the `for k, v := range elements` loop for one entry:
derive the names, then render/write the implementation artifact, then the
test artifact, stopping at the first failure. -/
def processEntry (env : Env) (odir : String) (fs : FS) (kv : String × Desc) :
    FS × Option GenError :=
  match deriveElem kv.1 kv.2 with
  | none => (fs, some (.derivePanic kv.1))
  | some e =>
    match executeTemplate env odir kv.1 .impl (kv.1 ++ "_elem.go") e fs with
    | (fs1, some err) => (fs1, some err)
    | (fs1, none) => executeTemplate env odir kv.1 .test (kv.1 ++ "_elem_test.go") e fs1

/-- The whole run of `main` over the catalog in a given iteration order:
process entries sequentially, aborting at the first failure. -/
def runPipeline (env : Env) (odir : String) :
    List (String × Desc) → FS → FS × Option GenError
  | [], fs => (fs, none)
  | kv :: rest, fs =>
    match processEntry env odir fs kv with
    | (fs1, some err) => (fs1, some err)
    | (fs1, none) => runPipeline env odir rest fs1

/-- The bytes the run writes for one entry and kind when every step of
that artifact succeeds (`none` when derivation, rendering or formatting
fails); this depends only on the entry, never on the rest of the catalog. -/
def artifactBytes (env : Env) (k : String) (v : Desc) (kind : Kind) :
    Option String :=
  match deriveElem k v with
  | none => none
  | some e =>
    match env.render kind e with
    | .error _ => none
    | .ok raw =>
      match env.format raw with
      | .error _ => none
      | .ok formatted => some formatted

/-- Spec-side formula for capitalization: first character upper-cased,
remainder unchanged (empty string unchanged); used to compare the
source-derived `goCapitalize` with the specification's wording. -/
def capFirst (s : String) : String :=
  match s.data with
  | [] => ""
  | c :: cs => String.mk (Char.toUpper c :: cs)

/-- Spec-side formula for one resolved attribute (§4.1 of the spec):
field name is the override if non-empty else `rawName` capitalized, the
external name is `rawName` verbatim, the type defaults to `"string"`. -/
def specAttr (a : Attr) : templAttr :=
  { Name := if a.Override = "" then capFirst a.Name else a.Override,
    JS := a.Name,
    Type' := if a.Type' = "" then "string" else a.Type' }

/-- The key of a `GenError`, used to check a failure identifies its entry. -/
def GenError.key : GenError → String
  | .derivePanic k => k
  | .artifactFailure k _ _ _ => k

/-- The artifact kind of a `GenError`, when the failure happened while
producing an artifact. -/
def GenError.kind? : GenError → Option Kind
  | .derivePanic _ => none
  | .artifactFailure _ kind _ _ => some kind

/-!  Basic facts about capitalization. -/

lemma goCapitalize_eq_some {s t : String} (h : goCapitalize s = some t) :
    t = capFirst s := by
  unfold goCapitalize at h
  unfold capFirst
  cases hs : s.data with
  | nil => rw [hs] at h; exact absurd h (by simp)
  | cons c cs => rw [hs] at h; simpa using h.symm

lemma goCapitalize_of_ne_empty {s : String} (h : s ≠ "") :
    goCapitalize s = some (capFirst s) := by
  unfold goCapitalize capFirst
  cases hs : s.data with
  | nil =>
    exact absurd (String.ext (hs.trans rfl)) h
  | cons c cs => simp

lemma resolveAttr_eq_some {a : Attr} {b : templAttr}
    (h : resolveAttr a = some b) : b = specAttr a := by
  by_cases ho : a.Override = ""
  · simp only [resolveAttr, specAttr, ho, if_true, eq_self_iff_true] at h ⊢
    cases hg : goCapitalize a.Name with
    | none => rw [hg] at h; exact absurd h (by simp)
    | some t =>
      rw [hg] at h
      simp only [Option.some.injEq] at h
      rw [← goCapitalize_eq_some hg, ← h]
  · simp only [resolveAttr, specAttr, ho, if_false, ite_false,
      Option.some.injEq] at h ⊢
    rw [← h]

lemma resolveAttr_of_ne_empty {a : Attr} (h : a.Name ≠ "") :
    resolveAttr a = some (specAttr a) := by
  by_cases ho : a.Override = ""
  · simp only [resolveAttr, specAttr, ho, if_true, eq_self_iff_true,
      goCapitalize_of_ne_empty h]
  · simp only [resolveAttr, specAttr, ho, if_false, ite_false]

lemma resolveAttrs_eq_some : ∀ {l : List Attr} {bs : List templAttr},
    resolveAttrs l = some bs → bs = l.map specAttr := by
  intro l
  induction l with
  | nil => intro bs h; simpa [resolveAttrs] using h.symm
  | cons a rest ih =>
    intro bs h
    unfold resolveAttrs at h
    cases ha : resolveAttr a with
    | none => rw [ha] at h; exact absurd h (by simp)
    | some b =>
      rw [ha] at h
      cases hr : resolveAttrs rest with
      | none => rw [hr] at h; exact absurd h (by simp)
      | some bs' =>
        rw [hr] at h
        simp only [Option.some.injEq] at h
        rw [← h, List.map_cons, ← resolveAttr_eq_some ha, ← ih hr]

lemma resolveAttrs_of_ne_empty : ∀ {l : List Attr},
    (∀ a ∈ l, a.Name ≠ "") → resolveAttrs l = some (l.map specAttr) := by
  intro l
  induction l with
  | nil => intro _; rfl
  | cons a rest ih =>
    intro h
    unfold resolveAttrs
    rw [resolveAttr_of_ne_empty (h a (by simp)),
        ih (fun a' ha' => h a' (by simp [ha']))]
    rfl

lemma deriveElem_eq_some {k : String} {v : Desc} {e : templElem}
    (h : deriveElem k v = some e) :
    e = { Elem := e.Upper ++ "Elem", Name := k, Props := e.Upper ++ "Props",
          Upper := (if v.Override = "" then capFirst k else v.Override),
          Attrs := v.Attributes.map specAttr } := by
  unfold deriveElem at h
  by_cases ho : v.Override = ""
  · rw [if_pos ho] at h
    cases hg : goCapitalize k with
    | none => rw [hg] at h; exact absurd h (by simp)
    | some upper =>
      rw [hg] at h
      cases hr : resolveAttrs v.Attributes with
      | none => rw [hr] at h; exact absurd h (by simp)
      | some attrs =>
        rw [hr] at h
        simp only [Option.some.injEq] at h
        rw [if_pos ho, ← h]
        simp [← goCapitalize_eq_some hg, ← resolveAttrs_eq_some hr]
  · rw [if_neg ho] at h
    cases hr : resolveAttrs v.Attributes with
    | none => rw [hr] at h; exact absurd h (by simp)
    | some attrs =>
      rw [hr] at h
      simp only [Option.some.injEq] at h
      rw [if_neg ho, ← h]
      simp [← resolveAttrs_eq_some hr]

/-!  Distinctness of output paths. -/

lemma impl_name_ne_test_name (k1 k2 : String) :
    k1 ++ "_elem.go" ≠ k2 ++ "_elem_test.go" := by
  intro h
  have hd : k1.data ++ ("_elem.go" : String).data
      = k2.data ++ ("_elem_test.go" : String).data := by
    have := congrArg String.data h
    simpa [String.data_append] using this
  have hr := congrArg List.reverse hd
  rw [List.reverse_append, List.reverse_append] at hr
  have ht := congrArg (List.take 8) hr
  rw [List.take_append_of_le_length (by decide),
      List.take_append_of_le_length (by decide)] at ht
  exact absurd ht (by decide)

lemma append_suffix_inj {k1 k2 s : String} (h : k1 ++ s = k2 ++ s) :
    k1 = k2 := by
  have hd : k1.data ++ s.data = k2.data ++ s.data := by
    have := congrArg String.data h
    simpa [String.data_append] using this
  exact String.ext (List.append_cancel_right hd)

lemma fileName_inj {k1 k2 : String} {kind1 kind2 : Kind}
    (h : k1 ++ kindSuffix kind1 = k2 ++ kindSuffix kind2) :
    k1 = k2 ∧ kind1 = kind2 := by
  cases kind1 <;> cases kind2
  · exact ⟨append_suffix_inj h, rfl⟩
  · exact absurd h (impl_name_ne_test_name k1 k2)
  · exact absurd h.symm (impl_name_ne_test_name k2 k1)
  · exact ⟨append_suffix_inj h, rfl⟩

lemma filepathJoin_inj {d n1 n2 : String}
    (h : filepathJoin d n1 = filepathJoin d n2) : n1 = n2 := by
  unfold filepathJoin at h
  by_cases hd : d = ""
  · simpa [hd] using h
  · rw [if_neg hd, if_neg hd] at h
    have hdd : (d ++ "/").data ++ n1.data = (d ++ "/").data ++ n2.data := by
      have := congrArg String.data h
      simpa [String.data_append, List.append_assoc] using this
    exact String.ext (List.append_cancel_left hdd)

lemma artifactPath_inj {odir k1 k2 : String} {kind1 kind2 : Kind}
    (h : artifactPath odir k1 kind1 = artifactPath odir k2 kind2) :
    k1 = k2 ∧ kind1 = kind2 :=
  fileName_inj (filepathJoin_inj h)

/-!  Facts about the filesystem model. -/

lemma fsGet_set_self (fs : FS) (p v : String) : fsGet (fsSet fs p v) p = some v := by
  simp [fsGet, fsSet]

lemma fsGet_set_ne (fs : FS) {p q : String} (v : String) (h : q ≠ p) :
    fsGet (fsSet fs p v) q = fsGet fs q := by
  simp [fsGet, fsSet, h]

/-!  Facts about `executeTemplate`. -/

lemma executeTemplate_get_ne (env : Env) (odir key : String) (kind : Kind)
    (n : String) (e : templElem) (fs : FS) {q : String}
    (h : q ≠ filepathJoin odir n) :
    fsGet (executeTemplate env odir key kind n e fs).1 q = fsGet fs q := by
  unfold executeTemplate
  cases hr : env.render kind e with
  | error m => rfl
  | ok raw =>
    dsimp only
    cases hf : env.format raw with
    | error m => rfl
    | ok formatted =>
      dsimp only
      by_cases hc : env.createOk (filepathJoin odir n) <;>
        by_cases hw : env.writeOk (filepathJoin odir n) <;>
          simp [hc, hw, fsGet_set_ne _ _ h]

lemma executeTemplate_ok {env : Env} {odir key : String} {kind : Kind}
    {n : String} {e : templElem} {fs fs' : FS}
    (h : executeTemplate env odir key kind n e fs = (fs', none)) :
    ∃ raw f, env.render kind e = .ok raw ∧ env.format raw = .ok f ∧
      fs' = fsSet (fsSet fs (filepathJoin odir n) "") (filepathJoin odir n) f := by
  unfold executeTemplate at h
  cases hr : env.render kind e with
  | error m => rw [hr] at h; simp at h
  | ok raw =>
    rw [hr] at h
    dsimp only at h
    cases hf : env.format raw with
    | error m => rw [hf] at h; simp at h
    | ok formatted =>
      rw [hf] at h
      dsimp only at h
      by_cases hc : env.createOk (filepathJoin odir n)
      · by_cases hw : env.writeOk (filepathJoin odir n)
        · simp only [hc, hw, if_true] at h
          refine ⟨raw, formatted, rfl, hf, ?_⟩
          exact ((Prod.mk.injEq _ _ _ _ ▸ h).1).symm
        · simp [hc, hw] at h
      · simp [hc] at h

lemma executeTemplate_err_key {env : Env} {odir key : String} {kind : Kind}
    {n : String} {e : templElem} {fs fs' : FS} {err : GenError}
    (h : executeTemplate env odir key kind n e fs = (fs', some err)) :
    err.key = key ∧ err.kind? = some kind := by
  unfold executeTemplate at h
  cases hr : env.render kind e with
  | error m =>
    rw [hr] at h
    simp only [Prod.mk.injEq, Option.some.injEq] at h
    rw [← h.2]
    exact ⟨rfl, rfl⟩
  | ok raw =>
    rw [hr] at h
    dsimp only at h
    cases hf : env.format raw with
    | error m =>
      rw [hf] at h
      simp only [Prod.mk.injEq, Option.some.injEq] at h
      rw [← h.2]
      exact ⟨rfl, rfl⟩
    | ok formatted =>
      rw [hf] at h
      dsimp only at h
      by_cases hc : env.createOk (filepathJoin odir n)
      · by_cases hw : env.writeOk (filepathJoin odir n)
        · rw [if_pos hc, if_pos hw] at h
          simp at h
        · rw [if_pos hc, if_neg hw] at h
          simp only [Prod.mk.injEq, Option.some.injEq] at h
          rw [← h.2]
          exact ⟨rfl, rfl⟩
      · rw [if_neg hc] at h
        simp only [Prod.mk.injEq, Option.some.injEq] at h
        rw [← h.2]
        exact ⟨rfl, rfl⟩

/-!  Facts about `processEntry` and `runPipeline`. -/

lemma processEntry_get_ne (env : Env) (odir : String) (fs : FS)
    (kv : String × Desc) {q : String}
    (h : ∀ kind, q ≠ artifactPath odir kv.1 kind) :
    fsGet (processEntry env odir fs kv).1 q = fsGet fs q := by
  unfold processEntry
  cases hd : deriveElem kv.1 kv.2 with
  | none => rfl
  | some e =>
    dsimp only
    have h1 := executeTemplate_get_ne env odir kv.1 .impl
      (kv.1 ++ "_elem.go") e fs (h .impl)
    cases he : executeTemplate env odir kv.1 .impl (kv.1 ++ "_elem.go") e fs with
    | mk fs1 r =>
      rw [he] at h1
      cases r with
      | some err => exact h1
      | none =>
        dsimp only
        have h2 := executeTemplate_get_ne env odir kv.1 .test
          (kv.1 ++ "_elem_test.go") e fs1 (h .test)
        exact h2.trans h1

lemma processEntry_err_key {env : Env} {odir : String} {fs fs' : FS}
    {kv : String × Desc} {err : GenError}
    (h : processEntry env odir fs kv = (fs', some err)) : err.key = kv.1 := by
  unfold processEntry at h
  cases hd : deriveElem kv.1 kv.2 with
  | none =>
    rw [hd] at h
    simp only [Prod.mk.injEq, Option.some.injEq] at h
    rw [← h.2]
    rfl
  | some e =>
    rw [hd] at h
    dsimp only at h
    cases he : executeTemplate env odir kv.1 .impl (kv.1 ++ "_elem.go") e fs with
    | mk fs1 r =>
      rw [he] at h
      cases r with
      | some e1 =>
        dsimp only at h
        simp only [Prod.mk.injEq, Option.some.injEq] at h
        rw [← h.2]
        exact (executeTemplate_err_key he).1
      | none =>
        dsimp only at h
        exact (executeTemplate_err_key h).1

lemma processEntry_ok_get {env : Env} {odir : String} {fs fs1 : FS}
    {kv : String × Desc} (h : processEntry env odir fs kv = (fs1, none)) :
    ∀ kind, fsGet fs1 (artifactPath odir kv.1 kind)
      = artifactBytes env kv.1 kv.2 kind := by
  unfold processEntry at h
  cases hd : deriveElem kv.1 kv.2 with
  | none => rw [hd] at h; simp at h
  | some e =>
    rw [hd] at h
    dsimp only at h
    cases he : executeTemplate env odir kv.1 .impl (kv.1 ++ "_elem.go") e fs with
    | mk fsA r =>
      rw [he] at h
      cases r with
      | some e1 => simp at h
      | none =>
        dsimp only at h
        obtain ⟨rawI, fI, hrI, hfI, hAeq⟩ := executeTemplate_ok he
        obtain ⟨rawT, fT, hrT, hfT, h1eq⟩ := executeTemplate_ok h
        have pne : artifactPath odir kv.1 Kind.impl ≠ artifactPath odir kv.1 Kind.test := by
          intro hp
          exact absurd (artifactPath_inj hp).2 (by simp)
        intro kind
        cases kind with
        | impl =>
          have hbytes : artifactBytes env kv.1 kv.2 Kind.impl = some fI := by
            unfold artifactBytes
            rw [hd]
            dsimp only
            rw [hrI]
            dsimp only
            rw [hfI]
          rw [hbytes, h1eq]
          show fsGet (fsSet (fsSet fsA (artifactPath odir kv.1 Kind.test) "")
            (artifactPath odir kv.1 Kind.test) fT) (artifactPath odir kv.1 Kind.impl)
            = some fI
          rw [fsGet_set_ne _ _ pne, fsGet_set_ne _ _ pne, hAeq]
          show fsGet (fsSet (fsSet fs (artifactPath odir kv.1 Kind.impl) "")
            (artifactPath odir kv.1 Kind.impl) fI) (artifactPath odir kv.1 Kind.impl)
            = some fI
          exact fsGet_set_self _ _ _
        | test =>
          have hbytes : artifactBytes env kv.1 kv.2 Kind.test = some fT := by
            unfold artifactBytes
            rw [hd]
            dsimp only
            rw [hrT]
            dsimp only
            rw [hfT]
          rw [hbytes, h1eq]
          show fsGet (fsSet (fsSet fsA (artifactPath odir kv.1 Kind.test) "")
            (artifactPath odir kv.1 Kind.test) fT) (artifactPath odir kv.1 Kind.test)
            = some fT
          exact fsGet_set_self _ _ _

lemma runPipeline_cons (env : Env) (odir : String) (kv : String × Desc)
    (rest : List (String × Desc)) (fs : FS) :
    runPipeline env odir (kv :: rest) fs =
      match processEntry env odir fs kv with
      | (fs1, some err) => (fs1, some err)
      | (fs1, none) => runPipeline env odir rest fs1 := rfl

lemma runPipeline_get_ne (env : Env) (odir : String) :
    ∀ (c : List (String × Desc)) (fs : FS) {q : String},
    (∀ kv ∈ c, ∀ kind, q ≠ artifactPath odir kv.1 kind) →
    fsGet (runPipeline env odir c fs).1 q = fsGet fs q := by
  intro c
  induction c with
  | nil => intro fs q _; rfl
  | cons kv rest ih =>
    intro fs q h
    rw [runPipeline_cons]
    cases hp : processEntry env odir fs kv with
    | mk fs1 r =>
      have h1 := processEntry_get_ne env odir fs kv (h kv (by simp))
      rw [hp] at h1
      cases r with
      | some e => exact h1
      | none =>
        dsimp only
        exact (ih fs1 (fun kv' hkv' => h kv' (by simp [hkv']))).trans h1

lemma runPipeline_append (env : Env) (odir : String) :
    ∀ (c1 c2 : List (String × Desc)) (fs : FS),
    runPipeline env odir (c1 ++ c2) fs =
      match runPipeline env odir c1 fs with
      | (fs1, some err) => (fs1, some err)
      | (fs1, none) => runPipeline env odir c2 fs1 := by
  intro c1
  induction c1 with
  | nil => intro c2 fs; rfl
  | cons kv rest ih =>
    intro c2 fs
    rw [List.cons_append, runPipeline_cons, runPipeline_cons]
    cases hp : processEntry env odir fs kv with
    | mk fs1 r =>
      cases r with
      | some e => rfl
      | none =>
        dsimp only
        exact ih c2 fs1

lemma run_ok_get (env : Env) (odir : String) :
    ∀ (c : List (String × Desc)) (fs g : FS),
    runPipeline env odir c fs = (g, none) →
    (c.map Prod.fst).Nodup →
    ∀ (k : String) (v : Desc) (kind : Kind), (k, v) ∈ c →
    fsGet g (artifactPath odir k kind) = artifactBytes env k v kind := by
  intro c
  induction c with
  | nil => intro fs g _ _ k v kind hm; exact absurd hm (List.not_mem_nil _)
  | cons kv rest ih =>
    intro fs g hrun hnodup k v kind hm
    rw [runPipeline_cons] at hrun
    cases hp : processEntry env odir fs kv with
    | mk fs1 r =>
      rw [hp] at hrun
      cases r with
      | some e => simp at hrun
      | none =>
        dsimp only at hrun
        simp only [List.map_cons, List.nodup_cons] at hnodup
        rcases List.mem_cons.mp hm with heq | hmem
        · subst heq
          have hget := processEntry_ok_get hp kind
          have hq : ∀ kv' ∈ rest, ∀ kind',
              artifactPath odir (k, v).1 kind ≠ artifactPath odir kv'.1 kind' := by
            intro kv' hkv' kind' hpath
            exact hnodup.1 ((artifactPath_inj hpath).1 ▸ List.mem_map_of_mem Prod.fst hkv')
          have huntouched := runPipeline_get_ne env odir rest fs1 hq
          rw [hrun] at huntouched
          exact huntouched.symm ▸ (huntouched.trans hget)
        · exact ih fs1 g hrun hnodup.2 k v kind hmem

/-!  Concrete collaborator instances used by the closed checks. -/

/-- Collaborators that always succeed; the renderer is the opaque pure
function of the derived-name record required by the design. -/
def okEnv : Env :=
  { render := fun _ e => .ok e.Elem,
    format := fun s => .ok s,
    createOk := fun _ => true,
    writeOk := fun _ => true }

/-- Collaborators whose formatter rejects every rendered text. -/
def badFormatEnv : Env :=
  { render := fun _ e => .ok e.Elem,
    format := fun _ => .error "format failure",
    createOk := fun _ => true,
    writeOk := fun _ => true }

/-- Collaborators whose formatter rejects exactly the rendering of the
element named `b`. -/
def badBEnv : Env :=
  { render := fun _ e => .ok e.Elem,
    format := fun s => if s = "BElem" then .error "bad" else .ok s,
    createOk := fun _ => true,
    writeOk := fun _ => true }

/-- A descriptor with no override and no attributes. -/
def plainDesc : Desc := { Override := "", Attributes := [] }

/-- Claim C1: for every catalog entry, the derived canonical capitalized
identifier (`Upper`) equals `Override` verbatim when that override is
non-empty, and otherwise equals the key with only its first character
uppercased and the remainder unchanged. -/
theorem claim_canonical_identifier (k : String) (v : Desc) (e : templElem)
    (h : deriveElem k v = some e) :
    e.Upper = if v.Override = "" then capFirst k else v.Override := by
  rw [deriveElem_eq_some h]

theorem claim_canonical_identifier_check :
    ({ Elem := "AudioElem", Name := "audio", Props := "AudioProps",
       Upper := "Audio", Attrs := [] } : templElem).Upper
      = if ("" : String) = "" then capFirst "audio" else "" :=
  claim_canonical_identifier "audio" { Override := "", Attributes := [] }
    { Elem := "AudioElem", Name := "audio", Props := "AudioProps",
      Upper := "Audio", Attrs := [] } (by decide)

/-- Claim C4: for every attribute of a descriptor, in catalog order, the
resolved field name is the attribute override verbatim when non-empty,
else the raw name with only its first character uppercased. -/
theorem claim_field_name (k : String) (v : Desc) (e : templElem)
    (h : deriveElem k v = some e) :
    e.Attrs.map templAttr.Name
      = v.Attributes.map
          (fun a => if a.Override = "" then capFirst a.Name else a.Override) := by
  rw [deriveElem_eq_some h]
  dsimp only
  rw [List.map_map]
  rfl

theorem claim_field_name_check :
    ([{ Name := "BGColor", JS := "bgcolor", Type' := "string" }] :
        List templAttr).map templAttr.Name
      = ([{ Name := "bgcolor", Override := "BGColor", Type' := "" }] :
          List Attr).map
          (fun a => if a.Override = "" then capFirst a.Name else a.Override) :=
  claim_field_name "col"
    { Override := "",
      Attributes := [{ Name := "bgcolor", Override := "BGColor", Type' := "" }] }
    { Elem := "ColElem", Name := "col", Props := "ColProps", Upper := "Col",
      Attrs := [{ Name := "BGColor", JS := "bgcolor", Type' := "string" }] }
    (by decide)

/-- Claim C5: for every attribute, the resolved field type is `"string"`
when the attribute type is empty, and the attribute type verbatim
otherwise. -/
theorem claim_field_type (k : String) (v : Desc) (e : templElem)
    (h : deriveElem k v = some e) :
    e.Attrs.map templAttr.Type'
      = v.Attributes.map
          (fun a => if a.Type' = "" then "string" else a.Type') := by
  rw [deriveElem_eq_some h]
  dsimp only
  rw [List.map_map]
  rfl

theorem claim_field_type_check :
    ([{ Name := "Open", JS := "open", Type' := "bool" }] :
        List templAttr).map templAttr.Type'
      = ([{ Name := "open", Override := "", Type' := "bool" }] :
          List Attr).map (fun a => if a.Type' = "" then "string" else a.Type') :=
  claim_field_type "details"
    { Override := "",
      Attributes := [{ Name := "open", Override := "", Type' := "bool" }] }
    { Elem := "DetailsElem", Name := "details", Props := "DetailsProps",
      Upper := "Details",
      Attrs := [{ Name := "Open", JS := "open", Type' := "bool" }] }
    (by decide)

/-- Claim C6: for every attribute, the resolved external (wire) name `JS`
equals the raw name verbatim, regardless of any override on the attribute
or on the enclosing descriptor. -/
theorem claim_external_name (k : String) (v : Desc) (e : templElem)
    (h : deriveElem k v = some e) :
    e.Attrs.map templAttr.JS = v.Attributes.map Attr.Name := by
  rw [deriveElem_eq_some h]
  dsimp only
  rw [List.map_map]
  rfl

theorem claim_external_name_check :
    ([{ Name := "BGColor", JS := "bgcolor", Type' := "string" }] :
        List templAttr).map templAttr.JS
      = ([{ Name := "bgcolor", Override := "BGColor", Type' := "" }] :
          List Attr).map Attr.Name :=
  claim_external_name "col"
    { Override := "",
      Attributes := [{ Name := "bgcolor", Override := "BGColor", Type' := "" }] }
    { Elem := "ColElem", Name := "col", Props := "ColProps", Upper := "Col",
      Attrs := [{ Name := "BGColor", JS := "bgcolor", Type' := "string" }] }
    (by decide)

/-- Claim C7: name derivation is total: for every descriptor whose key is
non-empty and whose attributes all have non-empty raw names (an empty
attribute list is allowed), derivation produces a record -- every
first-character access is in bounds. -/
theorem claim_derivation_total (k : String) (v : Desc) (hk : k ≠ "")
    (ha : ∀ a ∈ v.Attributes, a.Name ≠ "") :
    ∃ e, deriveElem k v = some e := by
  unfold deriveElem
  have hattrs := resolveAttrs_of_ne_empty ha
  by_cases ho : v.Override = ""
  · rw [if_pos ho, goCapitalize_of_ne_empty hk, hattrs]
    exact ⟨_, rfl⟩
  · rw [if_neg ho, hattrs]
    exact ⟨_, rfl⟩

theorem claim_derivation_total_check :
    ∃ e, deriveElem "a"
      { Override := "",
        Attributes := [{ Name := "href", Override := "", Type' := "" }] }
      = some e :=
  claim_derivation_total "a"
    { Override := "",
      Attributes := [{ Name := "href", Override := "", Type' := "" }] }
    (by decide) (by decide)

/-- Claim C8: each artifact path is the output directory joined with the
key extended by one of the two fixed, distinct kind suffixes, and the path
determines the key and the kind: paths of distinct keys or kinds never
collide. -/
theorem claim_output_paths_distinct (odir k1 k2 : String) (kind1 kind2 : Kind) :
    artifactPath odir k1 kind1 = artifactPath odir k2 kind2
      ↔ k1 = k2 ∧ kind1 = kind2 := by
  constructor
  · exact artifactPath_inj
  · rintro ⟨h1, h2⟩
    rw [h1, h2]

/-- Claim C9: the generator performs no duplicate-field detection: a
descriptor with two attributes resolving to the same field name derives
successfully, both attributes are kept in catalog order, and a run over
such an entry raises no error. -/
theorem claim_no_duplicate_detection :
    deriveElem "img"
      { Override := "",
        Attributes := [{ Name := "src", Override := "", Type' := "" },
                       { Name := "src", Override := "", Type' := "" }] }
      = some { Elem := "ImgElem", Name := "img", Props := "ImgProps",
               Upper := "Img",
               Attrs := [{ Name := "Src", JS := "src", Type' := "string" },
                         { Name := "Src", JS := "src", Type' := "string" }] } ∧
    (runPipeline okEnv "out"
        [("img",
          { Override := "",
            Attributes := [{ Name := "src", Override := "", Type' := "" },
                           { Name := "src", Override := "", Type' := "" }] })]
        emptyFS).2 = none :=
  ⟨by decide, by decide⟩

/-- Claim C10: per-artifact atomicity: when template execution or
formatting fails, `executeTemplate` aborts with the filesystem unchanged
-- the output file is neither created nor truncated, because `os.Create`
runs only after formatting succeeded. -/
theorem claim_artifact_atomicity (env : Env) (odir key : String) (kind : Kind)
    (n : String) (e : templElem) (fs : FS) :
    (∀ m, env.render kind e = .error m →
      executeTemplate env odir key kind n e fs
        = (fs, some (.artifactFailure key kind .render m))) ∧
    (∀ raw m, env.render kind e = .ok raw → env.format raw = .error m →
      executeTemplate env odir key kind n e fs
        = (fs, some (.artifactFailure key kind .format m))) := by
  constructor
  · intro m hm
    unfold executeTemplate
    rw [hm]
  · intro raw m hr hf
    unfold executeTemplate
    rw [hr]
    dsimp only
    rw [hf]

theorem claim_artifact_atomicity_check :
    executeTemplate badFormatEnv "out" "img" Kind.impl "img_elem.go"
      { Elem := "ImgElem", Name := "img", Props := "ImgProps", Upper := "Img",
        Attrs := [] } emptyFS
      = (emptyFS,
         some (.artifactFailure "img" Kind.impl Stage.format "format failure")) :=
  (claim_artifact_atomicity badFormatEnv "out" "img" Kind.impl "img_elem.go"
    { Elem := "ImgElem", Name := "img", Props := "ImgProps", Upper := "Img",
      Attrs := [] } emptyFS).2 "ImgElem" "format failure" rfl rfl

/-- Claim C2: fail-fast: when one entry's artifact fails, the run over any
catalog extending that prefix aborts with exactly that single failure, a
failure recording the offending entry (and, for artifact failures, the
artifact kind by construction); the result does not depend on the entries
ordered after the failing one, so none of their artifacts are produced. -/
theorem claim_fail_fast (env : Env) (odir : String)
    (c1 c2 : List (String × Desc)) (kv : String × Desc)
    (fs0 fs1 fs2 : FS) (err : GenError)
    (h1 : runPipeline env odir c1 fs0 = (fs1, none))
    (h2 : processEntry env odir fs1 kv = (fs2, some err)) :
    runPipeline env odir (c1 ++ kv :: c2) fs0 = (fs2, some err)
      ∧ err.key = kv.1 := by
  refine ⟨?_, processEntry_err_key h2⟩
  rw [runPipeline_append, h1]
  dsimp only
  rw [runPipeline_cons, h2]

theorem claim_fail_fast_check :
    runPipeline badBEnv "out"
        [("a", plainDesc), ("b", plainDesc), ("c", plainDesc)] emptyFS
      = ([("out/a_elem_test.go", "AElem"), ("out/a_elem_test.go", ""),
          ("out/a_elem.go", "AElem"), ("out/a_elem.go", "")],
         some (.artifactFailure "b" Kind.impl Stage.format "bad"))
      ∧ (GenError.artifactFailure "b" Kind.impl Stage.format "bad").key
          = ("b", plainDesc).1 :=
  claim_fail_fast badBEnv "out" [("a", plainDesc)] [("c", plainDesc)]
    ("b", plainDesc) emptyFS
    [("out/a_elem_test.go", "AElem"), ("out/a_elem_test.go", ""),
     ("out/a_elem.go", "AElem"), ("out/a_elem.go", "")]
    [("out/a_elem_test.go", "AElem"), ("out/a_elem_test.go", ""),
     ("out/a_elem.go", "AElem"), ("out/a_elem.go", "")]
    (.artifactFailure "b" Kind.impl Stage.format "bad")
    (by decide) (by decide)

/-- Claim C3: determinism: two runs over the same catalog (same keys and
descriptors, in any two iteration orders of the Go map) and the same
output directory write, for each key and artifact kind, byte-identical
contents. -/
theorem claim_determinism (env : Env) (odir : String)
    (c1 c2 : List (String × Desc)) (g1 g2 : FS)
    (hperm : c1.Perm c2) (hnodup : (c1.map Prod.fst).Nodup)
    (h1 : runPipeline env odir c1 emptyFS = (g1, none))
    (h2 : runPipeline env odir c2 emptyFS = (g2, none)) :
    ∀ (k : String) (v : Desc) (kind : Kind), (k, v) ∈ c1 →
      fsGet g1 (artifactPath odir k kind)
        = fsGet g2 (artifactPath odir k kind) := by
  intro k v kind hm
  have e1 := run_ok_get env odir c1 emptyFS g1 h1 hnodup k v kind hm
  have hnodup2 : (c2.map Prod.fst).Nodup := (hperm.map Prod.fst).nodup hnodup
  have hm2 : (k, v) ∈ c2 := hperm.subset hm
  have e2 := run_ok_get env odir c2 emptyFS g2 h2 hnodup2 k v kind hm2
  rw [e1, e2]

theorem claim_determinism_check :
    fsGet (runPipeline okEnv "out" [("a", plainDesc), ("b", plainDesc)]
        emptyFS).1 (artifactPath "out" "a" Kind.impl)
      = fsGet (runPipeline okEnv "out" [("b", plainDesc), ("a", plainDesc)]
          emptyFS).1 (artifactPath "out" "a" Kind.impl) :=
  claim_determinism okEnv "out" [("a", plainDesc), ("b", plainDesc)]
    [("b", plainDesc), ("a", plainDesc)] _ _
    (List.Perm.swap _ _ _) (by decide) rfl rfl "a" plainDesc Kind.impl
    (by decide)
